import Mathlib

/-!
Verification development for the mini-owl agent core.

Shallow embedding of the TypeScript sources:
  * `src/agent/lanes.ts`            — per-key FIFO task serialization,
  * `src/session/session-manager.ts`— session file resolution and history limiting,
  * `src/agent/daemon.ts`           — run tracking (`AgentDaemon.run`),
  * the runner half of `src/agent/daemon.ts` — tool-calling loop
    (`runAnthropicAgentTurn`, `runOpenAIAgentTurn`), `executeTool`,
    `runAgent` and its error classification.

Pure functions are translated to Lean functions; the event-loop
concurrency of the lane scheduler is modelled as a small-step transition
relation; a thrown JS exception is modelled as the `Except.error` side of
an `Except`.
-/

/-! ## Core data types (from `src/types.ts`) -/

/-- `Record<string, unknown>` argument mapping of a tool call.  The loop
treats arguments opaquely, so an association list of strings suffices. -/
def Args : Type := List (String × String)

deriving instance DecidableEq, Repr for Args

/-- Message roles (`"user" | "assistant" | "system"`). -/
inductive Role where
  | user
  | assistant
  | system
deriving DecidableEq, Repr

/-- A tool call made by the assistant (`interface ToolCall`). -/
structure ToolCall where
  id : String
  name : String
  arguments : Args
deriving DecidableEq, Repr

/-- Result of executing a tool (`interface ToolResult`); `isError` is an
optional field in the source. -/
structure ToolResult where
  toolCallId : String
  content : String
  isError : Option Bool
deriving DecidableEq, Repr

/-- A message of the conversation (`interface Message`); `toolCalls` and
`toolResults` are optional fields in the source. -/
structure Message where
  role : Role
  content : String
  toolCalls : Option (List ToolCall)
  toolResults : Option (List ToolResult)
deriving DecidableEq, Repr

/-- `interface ToolExecutionResult`: what `tool.execute` resolves to. -/
structure ToolExecutionResult where
  content : String
  isError : Option Bool
deriving DecidableEq, Repr

/-- A registered tool (`interface Tool`).  `execute` may throw, which is
modelled by the `Except.error` side carrying the thrown error's message;
the description/parameter schema is model-facing text irrelevant to the
verified control flow. -/
structure Tool where
  name : String
  execute : Args → Except String ToolExecutionResult

/-! ## Session manager (from `src/session/session-manager.ts`) -/

/-- The character class `[a-zA-Z0-9-_]` of `resolveSessionFile`'s
sanitizing regex (its complement is replaced by `_`). -/
def isAllowedFileChar (c : Char) : Bool :=
  ('a' ≤ c && c ≤ 'z') || ('A' ≤ c && c ≤ 'Z') || ('0' ≤ c && c ≤ '9')
    || c == '-' || c == '_'

/-- `sessionId.replace(/[^a-zA-Z0-9-_]/g, "_")` character by character.
JavaScript regexes walk UTF-16 code units, so a character above
`0xFFFF` (a surrogate pair, two units) is replaced by two underscores. -/
def sanitizeChars : List Char → List Char
  | [] => []
  | c :: cs =>
    (if isAllowedFileChar c then [c]
     else if c.toNat ≥ 0x10000 then ['_', '_'] else ['_']) ++ sanitizeChars cs

/-- The sanitized `safeId` computed inside `resolveSessionFile`. -/
def sanitizeSessionId (s : String) : String := ⟨sanitizeChars s.data⟩

/-- `resolveSessionFile(sessionsDir, sessionId)`.  `path.join` with a
second segment free of separators is concatenation with one `/` (plus
normalization of `sessionsDir` itself, which no theorem here depends
on). -/
def resolveSessionFile (sessionsDir sessionId : String) : String :=
  sessionsDir ++ "/" ++ (sanitizeSessionId sessionId ++ ".jsonl")

/-- One-argument `Array.prototype.slice(start)`: a negative `start`
counts from the end (clamped at zero), a non-negative one from the
front (clamped at the length). -/
def jsSlice {α : Type} (arr : List α) (start : Int) : List α :=
  if start < 0 then arr.drop (arr.length - min arr.length (-start).toNat)
  else arr.drop (min start.toNat arr.length)

/-- `limitHistoryTurns(messages, maxTurns)`: unchanged when within the
limit, otherwise the first message followed by
`messages.slice(-(maxTurns - 1))`.  The inner `[]` branch is unreachable:
the `else` branch forces `maxTurns < messages.length`. -/
def limitHistoryTurns (messages : List Message) (maxTurns : Nat) : List Message :=
  if messages.length ≤ maxTurns then messages
  else
    match messages with
    | [] => []
    | first :: _ => first :: jsSlice messages (1 - (maxTurns : Int))

/-! ## Lane scheduler (from `src/agent/lanes.ts`)

The scheduler is event-loop concurrent, so it is embedded as a
small-step transition relation over the state of one lane.  Tasks are
identified by their arrival index; `outcome i` is what awaiting task
`i`'s thunk yields (`Except.error` = the task threw).  The trace records
the externally observable events: a push onto `lane.queue`
(`enqueued`), the `shift` that begins executing a task (`started`), and
the delivery of the task's own result to its `resolve`/`reject`
(`settled`). -/

deriving instance DecidableEq for Except

/-- Observable events of one lane. -/
inductive LaneEvent where
  | enqueued (id : Nat)
  | started (id : Nat)
  | settled (id : Nat) (result : Except String String)
deriving DecidableEq, Repr

/-- State of one lane: the pending `queue` (head = next to run), the
`running` re-entrancy flag of `processLane`, the task currently being
awaited (between its `shift` and its settlement), the next arrival
index, and the event trace. -/
structure LaneSt where
  queue : List Nat
  running : Bool
  current : Option Nat
  nextId : Nat
  trace : List LaneEvent
deriving DecidableEq, Repr

/-- A fresh lane (`{ queue: [], running: false }`). -/
def laneInit : LaneSt := ⟨[], false, none, 0, []⟩

/-- Small-step transitions of one lane.
  * `enqueue`      — `enqueueInLane` pushes the task (lines 89–93);
  * `beginProcess` — `processLane` passes the `lane.running` guard and
                     sets the flag (lines 47–51);
  * `startTask`    — the loop body shifts the queue head and begins
                     awaiting `item.task()` (lines 53–57);
  * `finishTask`   — the awaited task settles and its result is
                     delivered to that item's `resolve`/`reject`
                     (lines 56–61, the `try`/`catch`);
  * `endProcess`   — the `while` loop exits and the flag clears
                     (lines 53, 64). -/
inductive LaneStep (outcome : Nat → Except String String) : LaneSt → LaneSt → Prop where
  | enqueue (s : LaneSt) :
      LaneStep outcome s
        { s with queue := s.queue ++ [s.nextId], nextId := s.nextId + 1,
                 trace := s.trace ++ [.enqueued s.nextId] }
  | beginProcess (s : LaneSt) (h : s.running = false) :
      LaneStep outcome s { s with running := true }
  | startTask (s : LaneSt) (id : Nat) (rest : List Nat)
      (hrun : s.running = true) (hcur : s.current = none)
      (hq : s.queue = id :: rest) :
      LaneStep outcome s
        { s with queue := rest, current := some id,
                 trace := s.trace ++ [.started id] }
  | finishTask (s : LaneSt) (id : Nat) (hcur : s.current = some id) :
      LaneStep outcome s
        { s with current := none,
                 trace := s.trace ++ [.settled id (outcome id)] }
  | endProcess (s : LaneSt) (hrun : s.running = true)
      (hcur : s.current = none) (hq : s.queue = []) :
      LaneStep outcome s { s with running := false }

/-- Lane states reachable from a fresh lane. -/
def LaneReachable (outcome : Nat → Except String String) (s : LaneSt) : Prop :=
  Relation.ReflTransGen (LaneStep outcome) laneInit s

/-- Arrival order: ids of `enqueued` events, in trace order. -/
def enqueuedIds (tr : List LaneEvent) : List Nat :=
  tr.filterMap fun e => match e with | .enqueued i => some i | _ => none

/-- Execution order: ids of `started` events, in trace order. -/
def startedIds (tr : List LaneEvent) : List Nat :=
  tr.filterMap fun e => match e with | .started i => some i | _ => none

/-- Settlement order: ids of `settled` events, in trace order. -/
def settledIds (tr : List LaneEvent) : List Nat :=
  tr.filterMap fun e => match e with | .settled i _ => some i | _ => none

/-! ## Tool execution and the tool-calling loop (runner half of `src/agent/daemon.ts`) -/

/-- The constants `MAX_TOOL_ITERATIONS` and `MAX_HISTORY_TURNS`. -/
def MAX_TOOL_ITERATIONS : Nat := 25

def MAX_HISTORY_TURNS : Nat := 50

/-- `executeTool(ctx, toolName, args)`: look the tool up by name; on a
miss return an error-flagged result naming the unknown tool; on a hit
run it, converting a thrown error into an error-flagged result.  The
observer callbacks are outside the returned value and are omitted. -/
def executeTool (tools : List Tool) (toolName : String) (args : Args) :
    ToolExecutionResult :=
  match tools.find? (fun t => t.name == toolName) with
  | none => { content := "Error: Unknown tool \"" ++ toolName ++ "\"", isError := some true }
  | some tool =>
    match tool.execute args with
    | .ok r => r
    | .error msg =>
      { content := "Error executing tool " ++ toolName ++ ": " ++ msg,
        isError := some true }

/-- What one Anthropic backend call delivers after
`stream.finalMessage()`: the accumulated stream text, the `tool_use`
blocks, the `stop_reason` string, and the usage counters. -/
structure AnthropicResponse where
  text : String
  toolCalls : List ToolCall
  stopReason : String
  inputTokens : Nat
  outputTokens : Nat
deriving DecidableEq, Repr

/-- What one OpenAI backend call delivers once its stream is drained:
the accumulated text, the (argument-parsed) tool calls, the finish
reason carried on the wire — which `runOpenAIAgentTurn` never reads —
and the usage counters. -/
structure OpenAIResponse where
  text : String
  toolCalls : List ToolCall
  finishReason : String
  promptTokens : Nat
  completionTokens : Nat
deriving DecidableEq, Repr

/-- The loop-local accumulator of either turn function: `newMessages`,
`finalResponse`, the usage totals and the `iterations` counter.
`calls` is proof instrumentation only: the backend call indices issued,
in order (the program keeps no such list). -/
structure TurnState where
  newMessages : List Message
  finalResponse : String
  inputTokens : Nat
  outputTokens : Nat
  iterations : Nat
  calls : List Nat
deriving DecidableEq, Repr

/-- Initial accumulator of a turn. -/
def initTurnState : TurnState :=
  { newMessages := [], finalResponse := "", inputTokens := 0,
    outputTokens := 0, iterations := 0, calls := [] }

/-- Outcome of a turn function: the accumulator, plus `some msg` when
the turn threw (a backend call failed); the source then discards the
accumulator, which is kept here only as instrumentation. -/
structure TurnAcc where
  st : TurnState
  error : Option String
deriving DecidableEq, Repr

/-- The `for (const toolCall of toolCalls)` loop of either turn
function: execute each call in received order and collect
`{toolCallId, content, isError}` results. -/
def toolResultsOf (tools : List Tool) (toolCalls : List ToolCall) : List ToolResult :=
  toolCalls.map fun tc =>
    let r := executeTool tools tc.name tc.arguments
    ⟨tc.id, r.content, r.isError⟩

/-- The accumulator after one tool-executing iteration of
`runAnthropicAgentTurn`'s loop body on response `resp`: `iterations++`
at the loop top, usage added, the assistant message (text + calls)
pushed, the calls executed in order and their results pushed as one
user-role carrier message.  (`calls` is the instrumentation field.) -/
def anthropicIterState (tools : List Tool) (resp : AnthropicResponse)
    (st : TurnState) : TurnState :=
  { newMessages := st.newMessages ++
      [⟨.assistant, resp.text,
        if resp.toolCalls.isEmpty then none else some resp.toolCalls, none⟩,
       ⟨.user, "", none, some (toolResultsOf tools resp.toolCalls)⟩],
    finalResponse := st.finalResponse,
    inputTokens := st.inputTokens + resp.inputTokens,
    outputTokens := st.outputTokens + resp.outputTokens,
    iterations := st.iterations + 1,
    calls := st.calls ++ [st.iterations] }

/-- The `while (iterations < MAX_TOOL_ITERATIONS)` loop of
`runAnthropicAgentTurn`, with the remaining iteration budget as fuel.
The backend (`client.messages.stream` + `finalMessage`) is abstracted
as a function of the 0-based call index; its input message list is a
function of the call history, which the index determines.  A throwing
backend call aborts the turn (`.error`), discarding the accumulator
(kept as instrumentation).  After executing tools the loop breaks on
`stop_reason === "end_turn"`, else recurses. -/
def runAnthropicAgentTurnAux (tools : List Tool)
    (backend : Nat → Except String AnthropicResponse) :
    Nat → TurnState → TurnAcc
  | 0, st => ⟨st, none⟩
  | fuel + 1, st =>
    match backend st.iterations with
    | .error msg =>
      ⟨{ st with iterations := st.iterations + 1,
                 calls := st.calls ++ [st.iterations] }, some msg⟩
    | .ok resp =>
      if resp.toolCalls.isEmpty then
        -- zero tool calls: push the assistant message, break with its text
        ⟨{ st with iterations := st.iterations + 1,
                   calls := st.calls ++ [st.iterations],
                   inputTokens := st.inputTokens + resp.inputTokens,
                   outputTokens := st.outputTokens + resp.outputTokens,
                   newMessages := st.newMessages ++
                     [⟨.assistant, resp.text,
                       if resp.toolCalls.isEmpty then none else some resp.toolCalls,
                       none⟩],
                   finalResponse := resp.text }, none⟩
      else if resp.stopReason == "end_turn" then
        -- tools executed, then natural end: break with the text
        ⟨{ anthropicIterState tools resp st with finalResponse := resp.text }, none⟩
      else
        runAnthropicAgentTurnAux tools backend fuel (anthropicIterState tools resp st)

/-- `runAnthropicAgentTurn` (also serving the Bedrock provider). -/
def runAnthropicAgentTurn (tools : List Tool)
    (backend : Nat → Except String AnthropicResponse) : TurnAcc :=
  runAnthropicAgentTurnAux tools backend MAX_TOOL_ITERATIONS initTurnState

/-- The accumulator after one tool-executing iteration of
`runOpenAIAgentTurn`'s loop body on response `resp` (same bookkeeping,
OpenAI usage field names). -/
def openaiIterState (tools : List Tool) (resp : OpenAIResponse)
    (st : TurnState) : TurnState :=
  { newMessages := st.newMessages ++
      [⟨.assistant, resp.text,
        if resp.toolCalls.isEmpty then none else some resp.toolCalls, none⟩,
       ⟨.user, "", none, some (toolResultsOf tools resp.toolCalls)⟩],
    finalResponse := st.finalResponse,
    inputTokens := st.inputTokens + resp.promptTokens,
    outputTokens := st.outputTokens + resp.completionTokens,
    iterations := st.iterations + 1,
    calls := st.calls ++ [st.iterations] }

/-- The `while (iterations < MAX_TOOL_ITERATIONS)` loop of
`runOpenAIAgentTurn`.  It breaks only when zero tool calls were parsed;
the wire `finishReason` is never consulted. -/
def runOpenAIAgentTurnAux (tools : List Tool)
    (backend : Nat → Except String OpenAIResponse) :
    Nat → TurnState → TurnAcc
  | 0, st => ⟨st, none⟩
  | fuel + 1, st =>
    match backend st.iterations with
    | .error msg =>
      ⟨{ st with iterations := st.iterations + 1,
                 calls := st.calls ++ [st.iterations] }, some msg⟩
    | .ok resp =>
      if resp.toolCalls.isEmpty then
        ⟨{ st with iterations := st.iterations + 1,
                   calls := st.calls ++ [st.iterations],
                   inputTokens := st.inputTokens + resp.promptTokens,
                   outputTokens := st.outputTokens + resp.completionTokens,
                   newMessages := st.newMessages ++
                     [⟨.assistant, resp.text,
                       if resp.toolCalls.isEmpty then none else some resp.toolCalls,
                       none⟩],
                   finalResponse := resp.text }, none⟩
      else
        runOpenAIAgentTurnAux tools backend fuel (openaiIterState tools resp st)

/-- `runOpenAIAgentTurn`. -/
def runOpenAIAgentTurn (tools : List Tool)
    (backend : Nat → Except String OpenAIResponse) : TurnAcc :=
  runOpenAIAgentTurnAux tools backend MAX_TOOL_ITERATIONS initTurnState

/-! ## `runAgent` error classification and orchestration -/

/-- Does the character list start with `p`? -/
def charsStartWith : List Char → List Char → Bool
  | [], _ => true
  | _ :: _, [] => false
  | p :: ps, c :: cs => p == c && charsStartWith ps cs

/-- Does `pat` occur inside the character list? -/
def strIncludesAux (pat : List Char) : List Char → Bool
  | [] => charsStartWith pat []
  | c :: cs => charsStartWith pat (c :: cs) || strIncludesAux pat cs

/-- Substring test used to embed `err.message.includes(pat)`. -/
def strIncludes (s pat : String) : Bool := strIncludesAux pat.data s.data

/-- The structured error of `AgentRunResult` (`kind` + `message`). -/
structure AgentError where
  kind : String
  message : String
deriving DecidableEq, Repr

/-- `AgentRunResult` (without the optional usage field, which the error
paths never set). -/
structure AgentRunResult where
  response : String
  messages : List Message
  error : Option AgentError
deriving DecidableEq, Repr

/-- The `catch` cascade of `runAgent`: pattern-match the thrown error's
message against backend-specific signatures and produce the taxonomy
kind with its canned message. -/
def classifyError (provider model msg : String) : AgentError :=
  if strIncludes msg "context_length_exceeded" || strIncludes msg "too many tokens" then
    { kind := "context_overflow",
      message := "Context length exceeded. Try starting a new session or using a smaller prompt." }
  else if strIncludes msg "rate_limit" || strIncludes msg "ThrottlingException" then
    { kind := "rate_limit",
      message := "Rate limit exceeded. Please wait before trying again." }
  else if strIncludes msg "AccessDeniedException" || strIncludes msg "UnauthorizedException" then
    { kind := "auth_error",
      message := "Authentication failed for " ++ provider ++ ". Check your credentials." }
  else if strIncludes msg "ResourceNotFoundException" || strIncludes msg "model not found" then
    { kind := "model_not_found",
      message := "Model \"" ++ model ++ "\" not found or not enabled for " ++ provider ++ "." }
  else
    { kind := "unknown", message := msg }

/-- `runAgent(params)`, conversation and error plumbing.  Client
construction, context-file loading and system-prompt assembly act only
on the backend's input and are absorbed into the backend functions; the
on-disk session was already loaded, giving `priorMessages` (empty for a
new session).  The success path mirrors

  `session.messages = [...limitedHistory, userMessage, ...result.newMessages]`

followed by `saveSession` and returning those messages; the `catch`
path returns `session.messages`, which at that point is still the
*loaded* history — the local `limitedHistory`, `userMessage` and the
turn's `newMessages` are not in it. -/
def runAgent (provider model : String) (tools : List Tool)
    (anthropicBackend : Nat → Except String AnthropicResponse)
    (openaiBackend : Nat → Except String OpenAIResponse)
    (priorMessages : List Message) (prompt : String) : AgentRunResult :=
  let limitedHistory := limitHistoryTurns priorMessages MAX_HISTORY_TURNS
  let userMessage : Message := ⟨.user, prompt, none, none⟩
  let acc : TurnAcc :=
    if provider == "openai" then runOpenAIAgentTurn tools openaiBackend
    else runAnthropicAgentTurn tools anthropicBackend
  match acc.error with
  | some msg =>
    { response := "", messages := priorMessages,
      error := some (classifyError provider model msg) }
  | none =>
    { response := acc.st.finalResponse,
      messages := limitedHistory ++ userMessage :: acc.st.newMessages,
      error := none }

/-! ## Run tracking (`AgentDaemon.run`, daemon half of `src/agent/daemon.ts`) -/

/-- One entry of `activeRuns` (the `AbortController` is an external
handle and carries no tracked state needed here). -/
structure ActiveRun where
  sessionId : String
  startedAt : Nat
  provider : String
deriving DecidableEq, Repr

/-- `Map.prototype.set`: overwrite an existing key in place, otherwise
append (a JS `Map` keeps insertion order). -/
def mapSet (m : List (String × ActiveRun)) (k : String) (v : ActiveRun) :
    List (String × ActiveRun) :=
  if m.any (fun p => p.1 == k) then
    m.map (fun p => if p.1 == k then (k, v) else p)
  else m ++ [(k, v)]

/-- `Map.prototype.delete` of key `k`. -/
def mapDelete (m : List (String × ActiveRun)) (k : String) :
    List (String × ActiveRun) :=
  m.filter (fun p => !(p.1 == k))

/-- `Map.prototype.get` of key `k`. -/
def mapGet (m : List (String × ActiveRun)) (k : String) : Option ActiveRun :=
  (m.find? (fun p => p.1 == k)).map (fun p => p.2)

/-- The run id allocated by `AgentDaemon.run`:
`` `${sessionId}:${Date.now()}` `` where `now` is the wall-clock
millisecond reading. -/
def mkRunId (sessionId : String) (now : Nat) : String :=
  sessionId ++ ":" ++ toString now

/-- Result of the lane task body of `AgentDaemon.run`: the allocated
run id, the `activeRuns` map as it stands when `runAgent` is invoked,
the map after the `finally` block, and the propagated outcome
(`Except.error` = `runAgent` threw and the `catch` re-threw). -/
structure LaneTaskResult where
  runId : String
  mapAtInvoke : List (String × ActiveRun)
  finalMap : List (String × ActiveRun)
  outcome : Except String AgentRunResult
deriving DecidableEq, Repr

/-- The async closure `AgentDaemon.run` enqueues in the session lane:
allocate the run id, `set` the `ActiveRun` entry, invoke the loop
(whose outcome is the parameter `agentOutcome`), and in `finally`
`delete` the entry, whether the loop returned or threw.  Event
emissions are external observers and are omitted. -/
def daemonRunTask (activeRuns : List (String × ActiveRun))
    (sessionId provider : String) (now : Nat)
    (agentOutcome : Except String AgentRunResult) : LaneTaskResult :=
  let runId := mkRunId sessionId now
  let afterInsert := mapSet activeRuns runId ⟨sessionId, now, provider⟩
  { runId := runId,
    mapAtInvoke := afterInsert,
    finalMap := mapDelete afterInsert runId,
    outcome := agentOutcome }

/-! ## Helper lemmas -/

lemma sanitizeChars_all_allowed (cs : List Char) :
    (sanitizeChars cs).all isAllowedFileChar = true := by
  have hu : isAllowedFileChar '_' = true := by decide
  induction cs with
  | nil => rfl
  | cons c cs ih =>
    by_cases h : isAllowedFileChar c
    · simp [sanitizeChars, h, List.all_append, ih]
    · by_cases h2 : c.toNat ≥ 0x10000 <;>
        simp [sanitizeChars, h, h2, List.all_append, ih, hu]

lemma string_append_left_cancel {a b c : String} (h : a ++ b = a ++ c) : b = c := by
  have hd : a.data ++ b.data = a.data ++ c.data := congrArg String.data h
  have hbc := List.append_cancel_left hd
  cases b
  cases c
  exact congrArg String.mk hbc

lemma find?_map_replace (m : List (String × ActiveRun)) (k : String) (v : ActiveRun)
    (h : m.any (fun p => p.1 == k) = true) :
    (m.map (fun p => if p.1 == k then (k, v) else p)).find? (fun p => p.1 == k)
      = some (k, v) := by
  induction m with
  | nil => simp at h
  | cons p m ih =>
    cases hp : (p.1 == k) with
    | true =>
      have hf : (if (p.1 == k) = true then ((k, v) : String × ActiveRun) else p)
          = (k, v) := by simp [hp]
      rw [List.map_cons, hf, List.find?_cons_of_pos _ (by simp)]
    | false =>
      have hf : (if (p.1 == k) = true then ((k, v) : String × ActiveRun) else p)
          = p := by simp [hp]
      have h' : m.any (fun p => p.1 == k) = true := by
        simpa [List.any_cons, hp] using h
      rw [List.map_cons, hf, List.find?_cons_of_neg _ (by simp [hp])]
      exact ih h'

lemma find?_append_new (m : List (String × ActiveRun)) (k : String) (v : ActiveRun)
    (h : m.any (fun p => p.1 == k) = false) :
    (m ++ [(k, v)]).find? (fun p => p.1 == k) = some (k, v) := by
  induction m with
  | nil => rw [List.nil_append, List.find?_cons_of_pos _ (by simp)]
  | cons p m ih =>
    cases hp : (p.1 == k) with
    | true => simp [List.any_cons, hp] at h
    | false =>
      have h2 : m.any (fun p => p.1 == k) = false := by
        simpa [List.any_cons, hp] using h
      rw [List.cons_append, List.find?_cons_of_neg _ (by simp [hp])]
      exact ih h2

lemma mapGet_mapSet_self (m : List (String × ActiveRun)) (k : String) (v : ActiveRun) :
    mapGet (mapSet m k v) k = some v := by
  unfold mapGet mapSet
  split
  case isTrue h =>
    rw [find?_map_replace m k v h]
    rfl
  case isFalse h =>
    have h' : m.any (fun p => p.1 == k) = false := Bool.eq_false_iff.mpr h
    rw [find?_append_new m k v h']
    rfl

lemma find?_filter_ne (m : List (String × ActiveRun)) (k : String) :
    (m.filter (fun p => !(p.1 == k))).find? (fun p => p.1 == k) = none := by
  induction m with
  | nil => rfl
  | cons p m ih =>
    cases hp : (p.1 == k) with
    | true =>
      rw [List.filter_cons]
      simp only [hp, Bool.not_true, Bool.false_eq_true, if_false]
      exact ih
    | false =>
      rw [List.filter_cons]
      simp only [hp, Bool.not_false, if_true]
      rw [List.find?_cons_of_neg _ (by simp [hp])]
      exact ih

lemma mapGet_mapDelete_self (m : List (String × ActiveRun)) (k : String) :
    mapGet (mapDelete m k) k = none := by
  unfold mapGet mapDelete
  rw [find?_filter_ne]
  rfl

/-! ## Theorems for the session manager (C9, C10) -/

/-- C9: for every session id, `resolveSessionFile` produces the
sessions directory joined with one filename whose stem consists only of
characters from `[a-zA-Z0-9-_]` — in particular no `/`, `\` or `.`, so
the file stays inside the directory — followed by `.jsonl`; the
sanitization is lossy, so the distinct ids `"a/b"` and `"a_b"` resolve
to the same file. -/
theorem resolveSessionFile_confines :
    (∀ dir sid, resolveSessionFile dir sid
        = dir ++ "/" ++ (sanitizeSessionId sid ++ ".jsonl"))
    ∧ (∀ sid, (sanitizeSessionId sid).data.all isAllowedFileChar = true)
    ∧ (∀ sid c, c ∈ (sanitizeSessionId sid).data → isAllowedFileChar c = true)
    ∧ (∀ sid, '/' ∉ (sanitizeSessionId sid).data ∧ '.' ∉ (sanitizeSessionId sid).data
        ∧ '\\' ∉ (sanitizeSessionId sid).data)
    ∧ (∀ dir, resolveSessionFile dir "a/b" = resolveSessionFile dir "a_b")
    ∧ ("a/b" : String) ≠ "a_b" := by
  have hall : ∀ sid c, c ∈ (sanitizeSessionId sid).data → isAllowedFileChar c = true := by
    intro sid c hc
    have h := sanitizeChars_all_allowed sid.data
    exact List.all_eq_true.mp h c hc
  refine ⟨fun dir sid => rfl, fun sid => sanitizeChars_all_allowed sid.data, hall,
    ?_, fun dir => rfl, by decide⟩
  intro sid
  exact ⟨fun hc => absurd (hall sid '/' hc) (by decide),
    fun hc => absurd (hall sid '.' hc) (by decide),
    fun hc => absurd (hall sid '\\' hc) (by decide)⟩

/-- C9 witness: the sanitized form of a concrete hostile id keeps only
allowed characters, and the collision pair resolves identically. -/
theorem resolveSessionFile_confines_witness :
    isAllowedFileChar '_' = true
    ∧ resolveSessionFile "/tmp/s" "a/b" = resolveSessionFile "/tmp/s" "a_b" := by
  refine ⟨?_, resolveSessionFile_confines.2.2.2.2.1 "/tmp/s"⟩
  exact resolveSessionFile_confines.2.2.1 "../x" '_' (by decide)

/-- C10: `limitHistoryTurns` keeps a short list unchanged and otherwise
returns the first message followed by the last `maxTurns - 1`, a list
of exactly `maxTurns` messages; the runner applies it with
`MAX_HISTORY_TURNS = 50` before each run, and the messages it returns
(and saves) are built from that truncated history. -/
theorem limitHistoryTurns_spec :
    (∀ (msgs : List Message) (maxTurns : Nat), 2 ≤ maxTurns →
      (msgs.length ≤ maxTurns → limitHistoryTurns msgs maxTurns = msgs)
      ∧ (maxTurns < msgs.length →
          limitHistoryTurns msgs maxTurns
            = msgs.take 1 ++ msgs.drop (msgs.length - (maxTurns - 1))
          ∧ (limitHistoryTurns msgs maxTurns).length = maxTurns))
    ∧ MAX_HISTORY_TURNS = 50
    ∧ (∀ provider model tools aB oB prior prompt,
        (provider == "openai") = false →
        (runAnthropicAgentTurn tools aB).error = none →
        (runAgent provider model tools aB oB prior prompt).messages
          = limitHistoryTurns prior MAX_HISTORY_TURNS
              ++ ⟨Role.user, prompt, none, none⟩
                :: (runAnthropicAgentTurn tools aB).st.newMessages) := by
  refine ⟨?_, rfl, ?_⟩
  · intro msgs maxTurns h2
    constructor
    · intro hle
      simp [limitHistoryTurns, hle]
    · intro hlt
      match msgs, hlt with
      | first :: restm, hlt =>
        have hlen : restm.length + 1 = (first :: restm).length := by
          simp
        have hnle : ¬ restm.length + 1 ≤ maxTurns := by
          simp only [List.length_cons] at hlt
          omega
        have hneg : (1 - (maxTurns : Int)) < 0 := by omega
        have htn : ((-(1 - (maxTurns : Int))).toNat) = maxTurns - 1 := by omega
        have hmin : (restm.length + 1) ⊓ (maxTurns - 1) = maxTurns - 1 := by
          simp only [List.length_cons] at hlt
          omega
        constructor
        · simp [limitHistoryTurns, hnle, jsSlice, hneg, htn, hmin]
        · simp only [limitHistoryTurns, List.length_cons, if_neg hnle, jsSlice,
            if_pos hneg, htn, hmin, List.length_drop]
          simp only [List.length_cons] at hlt
          omega
  · intro provider model tools aB oB prior prompt hprov herr
    simp only [runAgent, hprov, Bool.false_eq_true, if_false, herr]

/-- C10 witness: a 5-message history with `maxTurns = 3` keeps the
first and the last two messages; a 2-message history passes through;
and the anthropic success path of `runAgent` returns the truncated
history followed by the new user turn and the loop's messages. -/
theorem limitHistoryTurns_spec_witness :
    limitHistoryTurns
        [⟨Role.user, "m0", none, none⟩, ⟨Role.assistant, "m1", none, none⟩,
         ⟨Role.user, "m2", none, none⟩, ⟨Role.assistant, "m3", none, none⟩,
         ⟨Role.user, "m4", none, none⟩] 3
      = [⟨Role.user, "m0", none, none⟩].take 1
          ++ [⟨Role.user, "m0", none, none⟩, ⟨Role.assistant, "m1", none, none⟩,
              ⟨Role.user, "m2", none, none⟩, ⟨Role.assistant, "m3", none, none⟩,
              ⟨Role.user, "m4", none, none⟩].drop 3
    ∧ limitHistoryTurns
        [⟨Role.user, "m0", none, none⟩, ⟨Role.assistant, "m1", none, none⟩] 3
      = [⟨Role.user, "m0", none, none⟩, ⟨Role.assistant, "m1", none, none⟩]
    ∧ (runAgent "anthropic" "m" []
          (fun _ => .ok ⟨"done", [], "end_turn", 0, 0⟩)
          (fun _ => .ok ⟨"", [], "stop", 0, 0⟩) [] "hello").messages
        = limitHistoryTurns [] MAX_HISTORY_TURNS
            ++ ⟨Role.user, "hello", none, none⟩
              :: (runAnthropicAgentTurn []
                    (fun _ => .ok ⟨"done", [], "end_turn", 0, 0⟩)).st.newMessages := by
  have h := limitHistoryTurns_spec
  refine ⟨?_, ?_, ?_⟩
  · have h1 := (h.1
      [⟨Role.user, "m0", none, none⟩, ⟨Role.assistant, "m1", none, none⟩,
       ⟨Role.user, "m2", none, none⟩, ⟨Role.assistant, "m3", none, none⟩,
       ⟨Role.user, "m4", none, none⟩] 3 (by decide)).2 (by decide)
    have h2 := h1.1
    simpa using h2
  · exact (h.1
      [⟨Role.user, "m0", none, none⟩, ⟨Role.assistant, "m1", none, none⟩] 3
      (by decide)).1 (by decide)
  · exact h.2.2 "anthropic" "m" []
      (fun _ => .ok ⟨"done", [], "end_turn", 0, 0⟩)
      (fun _ => .ok ⟨"", [], "stop", 0, 0⟩) [] "hello" (by decide) (by decide)

/-! ## Theorems for run tracking (C6, C8) -/

/-- C6 (amended): the run id allocated by `AgentDaemon.run` is the
session id paired with the wall-clock millisecond reading
(`` `${sessionId}:${Date.now()}` ``), not a monotonic counter: it is a
function of (session id, clock value) alone — so any two runs of one
session started in the same millisecond receive the *same* id — while
runs of one session whose clock readings render differently receive
different ids. -/
theorem run_id_from_wall_clock :
    (∀ m sid p t o, (daemonRunTask m sid p t o).runId = sid ++ ":" ++ toString t)
    ∧ (∀ m1 m2 sid p1 p2 t o1 o2,
        (daemonRunTask m1 sid p1 t o1).runId = (daemonRunTask m2 sid p2 t o2).runId)
    ∧ (∀ sid t1 t2, toString t1 ≠ toString t2 → mkRunId sid t1 ≠ mkRunId sid t2) := by
  refine ⟨fun m sid p t o => rfl, fun m1 m2 sid p1 p2 t o1 o2 => rfl, ?_⟩
  intro sid t1 t2 hts heq
  exact hts (string_append_left_cancel (a := sid ++ ":") heq)

/-- C6 witness: distinct millisecond readings in one session yield
distinct run ids. -/
theorem run_id_from_wall_clock_witness :
    mkRunId "sess" 1 ≠ mkRunId "sess" 2 :=
  run_id_from_wall_clock.2.2 "sess" 1 2 (by decide)

/-- C6 counterexample: two *distinct* runs of the same session (they
even settle with different outcomes) started in the same millisecond
are allocated the *same* run id, refuting process-lifetime
uniqueness. -/
theorem run_id_collision_counterexample :
    (daemonRunTask [] "alice" "anthropic" 1700000000000
        (.ok ⟨"done", [], none⟩)).runId
      = (daemonRunTask [] "alice" "anthropic" 1700000000000
          (.error "boom")).runId
    ∧ (daemonRunTask [] "alice" "anthropic" 1700000000000
        (.ok ⟨"done", [], none⟩)).outcome
      ≠ (daemonRunTask [] "alice" "anthropic" 1700000000000
          (.error "boom")).outcome := by
  exact ⟨rfl, by decide⟩

/-- C8: the lane task body of `AgentDaemon.run` holds the `ActiveRun`
entry in `activeRuns` when the tool-calling loop is invoked, and after
the `finally` block the entry is gone — whether the loop returned a
result or threw (cancellation surfaces as one of the two) — and the
loop's outcome is propagated unchanged. -/
theorem run_entry_lifecycle :
    ∀ m sid p t o,
      mapGet (daemonRunTask m sid p t o).mapAtInvoke (daemonRunTask m sid p t o).runId
        = some ⟨sid, t, p⟩
      ∧ mapGet (daemonRunTask m sid p t o).finalMap (daemonRunTask m sid p t o).runId
        = none
      ∧ (daemonRunTask m sid p t o).outcome = o := by
  intro m sid p t o
  exact ⟨mapGet_mapSet_self m (mkRunId sid t) ⟨sid, t, p⟩,
    mapGet_mapDelete_self (mapSet m (mkRunId sid t) ⟨sid, t, p⟩) (mkRunId sid t),
    rfl⟩

/-! ## Lemmas about the tool-calling loop -/

/-- "The backend emits at least one tool call and does not signal
natural end": the condition keeping the Anthropic loop iterating. -/
def isAlive (e : Except String AnthropicResponse) : Bool :=
  match e with
  | .error _ => false
  | .ok r => !r.toolCalls.isEmpty && !(r.stopReason == "end_turn")

lemma anthropic_aux_extends (tools : List Tool)
    (backend : Nat → Except String AnthropicResponse) :
    ∀ fuel st, ∃ ms cs,
      (runAnthropicAgentTurnAux tools backend fuel st).st.newMessages
        = st.newMessages ++ ms
      ∧ (runAnthropicAgentTurnAux tools backend fuel st).st.calls
        = st.calls ++ cs := by
  intro fuel
  induction fuel with
  | zero => exact fun st => ⟨[], [], by simp [runAnthropicAgentTurnAux], by simp [runAnthropicAgentTurnAux]⟩
  | succ n ih =>
    intro st
    cases hb : backend st.iterations with
    | error msg =>
      exact ⟨[], [st.iterations], by simp [runAnthropicAgentTurnAux, hb],
        by simp [runAnthropicAgentTurnAux, hb]⟩
    | ok resp =>
      by_cases he : resp.toolCalls.isEmpty = true
      · exact ⟨[⟨.assistant, resp.text, none, none⟩], [st.iterations],
          by simp [runAnthropicAgentTurnAux, hb, he],
          by simp [runAnthropicAgentTurnAux, hb, he]⟩
      · have he' : resp.toolCalls.isEmpty = false := Bool.eq_false_iff.mpr he
        by_cases hs : (resp.stopReason == "end_turn") = true
        · exact ⟨[⟨.assistant, resp.text, some resp.toolCalls, none⟩,
              ⟨.user, "", none, some (toolResultsOf tools resp.toolCalls)⟩],
            [st.iterations],
            by simp [runAnthropicAgentTurnAux, hb, he', hs, anthropicIterState],
            by simp [runAnthropicAgentTurnAux, hb, he', hs, anthropicIterState]⟩
        · have hs' : (resp.stopReason == "end_turn") = false := Bool.eq_false_iff.mpr hs
          have hstep : runAnthropicAgentTurnAux tools backend (n + 1) st
              = runAnthropicAgentTurnAux tools backend n (anthropicIterState tools resp st) := by
            simp [runAnthropicAgentTurnAux, hb, he', hs']
          obtain ⟨ms, cs, h1, h2⟩ := ih (anthropicIterState tools resp st)
          refine ⟨[⟨.assistant, resp.text, some resp.toolCalls, none⟩,
              ⟨.user, "", none, some (toolResultsOf tools resp.toolCalls)⟩] ++ ms,
            [st.iterations] ++ cs, ?_, ?_⟩
          · rw [hstep, h1]
            simp [anthropicIterState, he']
          · rw [hstep, h2]
            simp [anthropicIterState]

lemma anthropic_aux_calls_head (tools : List Tool)
    (backend : Nat → Except String AnthropicResponse)
    (fuel : Nat) (st : TurnState) (h : 0 < fuel) :
    ∃ cs, (runAnthropicAgentTurnAux tools backend fuel st).st.calls
      = st.calls ++ st.iterations :: cs := by
  match fuel, h with
  | n + 1, _ =>
    cases hb : backend st.iterations with
    | error msg => exact ⟨[], by simp [runAnthropicAgentTurnAux, hb]⟩
    | ok resp =>
      by_cases he : resp.toolCalls.isEmpty = true
      · exact ⟨[], by simp [runAnthropicAgentTurnAux, hb, he]⟩
      · have he' : resp.toolCalls.isEmpty = false := Bool.eq_false_iff.mpr he
        by_cases hs : (resp.stopReason == "end_turn") = true
        · exact ⟨[], by simp [runAnthropicAgentTurnAux, hb, he', hs, anthropicIterState]⟩
        · have hs' : (resp.stopReason == "end_turn") = false := Bool.eq_false_iff.mpr hs
          have hstep : runAnthropicAgentTurnAux tools backend (n + 1) st
              = runAnthropicAgentTurnAux tools backend n (anthropicIterState tools resp st) := by
            simp [runAnthropicAgentTurnAux, hb, he', hs']
          obtain ⟨ms, cs, _, h2⟩ :=
            anthropic_aux_extends tools backend n (anthropicIterState tools resp st)
          refine ⟨cs, ?_⟩
          rw [hstep, h2]
          simp [anthropicIterState]

lemma anthropic_aux_alive (tools : List Tool)
    (backend : Nat → Except String AnthropicResponse) :
    ∀ fuel st,
      (∀ i, st.iterations ≤ i → i < st.iterations + fuel → isAlive (backend i) = true) →
      (runAnthropicAgentTurnAux tools backend fuel st).error = none
      ∧ (runAnthropicAgentTurnAux tools backend fuel st).st.iterations
          = st.iterations + fuel
      ∧ (runAnthropicAgentTurnAux tools backend fuel st).st.finalResponse
          = st.finalResponse := by
  intro fuel
  induction fuel with
  | zero => exact fun st _ => ⟨rfl, rfl, rfl⟩
  | succ n ih =>
    intro st h
    have halive := h st.iterations (le_refl _) (by omega)
    cases hb : backend st.iterations with
    | error msg => rw [hb] at halive; simp [isAlive] at halive
    | ok resp =>
      rw [hb] at halive
      have hcond : resp.toolCalls.isEmpty = false
          ∧ (resp.stopReason == "end_turn") = false := by
        simpa [isAlive, Bool.and_eq_true, Bool.not_eq_true'] using halive
      have hstep : runAnthropicAgentTurnAux tools backend (n + 1) st
          = runAnthropicAgentTurnAux tools backend n (anthropicIterState tools resp st) := by
        simp [runAnthropicAgentTurnAux, hb, hcond.1, hcond.2]
      have hiter : (anthropicIterState tools resp st).iterations = st.iterations + 1 := rfl
      have hresp : (anthropicIterState tools resp st).finalResponse = st.finalResponse := rfl
      obtain ⟨e1, e2, e3⟩ := ih (anthropicIterState tools resp st)
        (fun i h1 h2 => h i (by rw [hiter] at h1; omega) (by rw [hiter] at h2; omega))
      rw [hstep]
      refine ⟨e1, ?_, by rw [e3, hresp]⟩
      rw [e2, hiter]
      omega

lemma anthropic_aux_fail (tools : List Tool)
    (backend : Nat → Except String AnthropicResponse) :
    ∀ fuel st k msg,
      st.iterations ≤ k → k < st.iterations + fuel →
      (∀ i, st.iterations ≤ i → i < k → isAlive (backend i) = true) →
      backend k = .error msg →
      (runAnthropicAgentTurnAux tools backend fuel st).error = some msg
      ∧ (runAnthropicAgentTurnAux tools backend fuel st).st.calls
          = st.calls ++ List.range' st.iterations (k + 1 - st.iterations) := by
  intro fuel
  induction fuel with
  | zero => intro st k msg h1 h2 _ _; omega
  | succ n ih =>
    intro st k msg hk1 hk2 halive hfail
    by_cases heq : st.iterations = k
    · have hfail' : backend st.iterations = .error msg := by rw [heq]; exact hfail
      have hone : k + 1 - st.iterations = 1 := by omega
      refine ⟨by simp [runAnthropicAgentTurnAux, hfail'], ?_⟩
      rw [hone]
      simp [runAnthropicAgentTurnAux, hfail', List.range']
    · have hlt : st.iterations < k := by omega
      have ha := halive st.iterations (le_refl _) hlt
      cases hb : backend st.iterations with
      | error m => rw [hb] at ha; simp [isAlive] at ha
      | ok resp =>
        rw [hb] at ha
        have hcond : resp.toolCalls.isEmpty = false
            ∧ (resp.stopReason == "end_turn") = false := by
          simpa [isAlive, Bool.and_eq_true, Bool.not_eq_true'] using ha
        have hstep : runAnthropicAgentTurnAux tools backend (n + 1) st
            = runAnthropicAgentTurnAux tools backend n (anthropicIterState tools resp st) := by
          simp [runAnthropicAgentTurnAux, hb, hcond.1, hcond.2]
        have hiter : (anthropicIterState tools resp st).iterations = st.iterations + 1 := rfl
        obtain ⟨e1, e2⟩ := ih (anthropicIterState tools resp st) k msg
          (by rw [hiter]; omega) (by rw [hiter]; omega)
          (fun i hi1 hi2 => halive i (by rw [hiter] at hi1; omega) hi2) hfail
        rw [hstep]
        refine ⟨e1, ?_⟩
        rw [e2]
        have hrange : List.range' st.iterations (k + 1 - st.iterations)
            = st.iterations :: List.range' (st.iterations + 1) (k + 1 - (st.iterations + 1)) := by
          have hm : k + 1 - st.iterations = (k + 1 - (st.iterations + 1)) + 1 := by omega
          rw [hm, List.range'_succ]
        rw [hrange]
        simp [anthropicIterState, hiter]

lemma openai_aux_extends (tools : List Tool)
    (backend : Nat → Except String OpenAIResponse) :
    ∀ fuel st, ∃ ms cs,
      (runOpenAIAgentTurnAux tools backend fuel st).st.newMessages
        = st.newMessages ++ ms
      ∧ (runOpenAIAgentTurnAux tools backend fuel st).st.calls
        = st.calls ++ cs := by
  intro fuel
  induction fuel with
  | zero => exact fun st => ⟨[], [], by simp [runOpenAIAgentTurnAux], by simp [runOpenAIAgentTurnAux]⟩
  | succ n ih =>
    intro st
    cases hb : backend st.iterations with
    | error msg =>
      exact ⟨[], [st.iterations], by simp [runOpenAIAgentTurnAux, hb],
        by simp [runOpenAIAgentTurnAux, hb]⟩
    | ok resp =>
      by_cases he : resp.toolCalls.isEmpty = true
      · exact ⟨[⟨.assistant, resp.text, none, none⟩], [st.iterations],
          by simp [runOpenAIAgentTurnAux, hb, he],
          by simp [runOpenAIAgentTurnAux, hb, he]⟩
      · have he' : resp.toolCalls.isEmpty = false := Bool.eq_false_iff.mpr he
        have hstep : runOpenAIAgentTurnAux tools backend (n + 1) st
            = runOpenAIAgentTurnAux tools backend n (openaiIterState tools resp st) := by
          simp [runOpenAIAgentTurnAux, hb, he']
        obtain ⟨ms, cs, h1, h2⟩ := ih (openaiIterState tools resp st)
        refine ⟨[⟨.assistant, resp.text, some resp.toolCalls, none⟩,
            ⟨.user, "", none, some (toolResultsOf tools resp.toolCalls)⟩] ++ ms,
          [st.iterations] ++ cs, ?_, ?_⟩
        · rw [hstep, h1]
          simp [openaiIterState, he']
        · rw [hstep, h2]
          simp [openaiIterState]

lemma openai_aux_calls_head (tools : List Tool)
    (backend : Nat → Except String OpenAIResponse)
    (fuel : Nat) (st : TurnState) (h : 0 < fuel) :
    ∃ cs, (runOpenAIAgentTurnAux tools backend fuel st).st.calls
      = st.calls ++ st.iterations :: cs := by
  match fuel, h with
  | n + 1, _ =>
    cases hb : backend st.iterations with
    | error msg => exact ⟨[], by simp [runOpenAIAgentTurnAux, hb]⟩
    | ok resp =>
      by_cases he : resp.toolCalls.isEmpty = true
      · exact ⟨[], by simp [runOpenAIAgentTurnAux, hb, he]⟩
      · have he' : resp.toolCalls.isEmpty = false := Bool.eq_false_iff.mpr he
        have hstep : runOpenAIAgentTurnAux tools backend (n + 1) st
            = runOpenAIAgentTurnAux tools backend n (openaiIterState tools resp st) := by
          simp [runOpenAIAgentTurnAux, hb, he']
        obtain ⟨ms, cs, _, h2⟩ :=
          openai_aux_extends tools backend n (openaiIterState tools resp st)
        refine ⟨cs, ?_⟩
        rw [hstep, h2]
        simp [openaiIterState]

/-- "The backend emits at least one tool call": the condition keeping
the OpenAI loop iterating (it has no stop-signal break). -/
def isAliveOpenAI (e : Except String OpenAIResponse) : Bool :=
  match e with
  | .error _ => false
  | .ok r => !r.toolCalls.isEmpty

lemma openai_aux_fail (tools : List Tool)
    (backend : Nat → Except String OpenAIResponse) :
    ∀ fuel st k msg,
      st.iterations ≤ k → k < st.iterations + fuel →
      (∀ i, st.iterations ≤ i → i < k → isAliveOpenAI (backend i) = true) →
      backend k = .error msg →
      (runOpenAIAgentTurnAux tools backend fuel st).error = some msg
      ∧ (runOpenAIAgentTurnAux tools backend fuel st).st.calls
          = st.calls ++ List.range' st.iterations (k + 1 - st.iterations) := by
  intro fuel
  induction fuel with
  | zero => intro st k msg h1 h2 _ _; omega
  | succ n ih =>
    intro st k msg hk1 hk2 halive hfail
    by_cases heq : st.iterations = k
    · have hfail' : backend st.iterations = .error msg := by rw [heq]; exact hfail
      have hone : k + 1 - st.iterations = 1 := by omega
      refine ⟨by simp [runOpenAIAgentTurnAux, hfail'], ?_⟩
      rw [hone]
      simp [runOpenAIAgentTurnAux, hfail', List.range']
    · have hlt : st.iterations < k := by omega
      have ha := halive st.iterations (le_refl _) hlt
      cases hb : backend st.iterations with
      | error m => rw [hb] at ha; simp [isAliveOpenAI] at ha
      | ok resp =>
        rw [hb] at ha
        have he' : resp.toolCalls.isEmpty = false := by
          simpa [isAliveOpenAI, Bool.not_eq_true'] using ha
        have hstep : runOpenAIAgentTurnAux tools backend (n + 1) st
            = runOpenAIAgentTurnAux tools backend n (openaiIterState tools resp st) := by
          simp [runOpenAIAgentTurnAux, hb, he']
        have hiter : (openaiIterState tools resp st).iterations = st.iterations + 1 := rfl
        obtain ⟨e1, e2⟩ := ih (openaiIterState tools resp st) k msg
          (by rw [hiter]; omega) (by rw [hiter]; omega)
          (fun i hi1 hi2 => halive i (by rw [hiter] at hi1; omega) hi2) hfail
        rw [hstep]
        refine ⟨e1, ?_⟩
        rw [e2]
        have hrange : List.range' st.iterations (k + 1 - st.iterations)
            = st.iterations :: List.range' (st.iterations + 1) (k + 1 - (st.iterations + 1)) := by
          have hm : k + 1 - st.iterations = (k + 1 - (st.iterations + 1)) + 1 := by omega
          rw [hm, List.range'_succ]
        rw [hrange]
        simp [openaiIterState, hiter]

/-! ## Theorems for the tool-calling loop (C2, C4, C7) -/

/-- C2 (amended): against a backend that emits at least one tool call on
every iteration and never signals natural end, `runAnthropicAgentTurn`
performs exactly `MAX_TOOL_ITERATIONS = 25` iterations and raises no
exception, but its final response is the *empty string* — the
`finalResponse` variable is only assigned at the two break points, so
the text produced on the capped iterations is not returned as the
response (it remains only inside the returned messages). -/
theorem tool_loop_stops_at_cap (tools : List Tool)
    (backend : Nat → Except String AnthropicResponse)
    (h : ∀ i, i < MAX_TOOL_ITERATIONS → isAlive (backend i) = true) :
    (runAnthropicAgentTurn tools backend).error = none
    ∧ (runAnthropicAgentTurn tools backend).st.iterations = MAX_TOOL_ITERATIONS
    ∧ (runAnthropicAgentTurn tools backend).st.finalResponse = "" := by
  have := anthropic_aux_alive tools backend MAX_TOOL_ITERATIONS initTurnState
    (fun i h1 h2 => h i (by simpa [initTurnState] using h2))
  simpa [runAnthropicAgentTurn, initTurnState] using this

/-- C2 counterexample: a stub backend that answers `"hi"` with a tool
call on every iteration.  The capped loop returns response `""`, not
the last produced assistant text `"hi"`. -/
def alwaysToolsBackend : Nat → Except String AnthropicResponse :=
  fun _ => .ok ⟨"hi", [⟨"c1", "t", []⟩], "tool_use", 1, 2⟩

theorem tool_loop_cap_counterexample :
    (runAnthropicAgentTurn [] alwaysToolsBackend).error = none
    ∧ (runAnthropicAgentTurn [] alwaysToolsBackend).st.iterations = 25
    ∧ (runAnthropicAgentTurn [] alwaysToolsBackend).st.finalResponse = ""
    ∧ ((runAnthropicAgentTurn [] alwaysToolsBackend).st.newMessages.filterMap
        fun m => if m.role == Role.assistant then some m.content else none).getLast?
        = some "hi"
    ∧ ("" : String) ≠ "hi" := by
  refine ⟨?_, ?_, ?_, ?_, by decide⟩ <;> decide

/-- C2 witness: the always-tool-calling stub backend satisfies the
liveness hypothesis and the capped loop finishes cleanly at 25. -/
theorem tool_loop_stops_at_cap_witness :
    (∀ i, i < MAX_TOOL_ITERATIONS → isAlive (alwaysToolsBackend i) = true)
    ∧ (runAnthropicAgentTurn [] alwaysToolsBackend).error = none
    ∧ (runAnthropicAgentTurn [] alwaysToolsBackend).st.iterations = MAX_TOOL_ITERATIONS
    ∧ (runAnthropicAgentTurn [] alwaysToolsBackend).st.finalResponse = "" := by
  have h : ∀ i, i < MAX_TOOL_ITERATIONS → isAlive (alwaysToolsBackend i) = true := by
    decide
  exact ⟨h, tool_loop_stops_at_cap [] alwaysToolsBackend h⟩

/-- C4 (amended): both loop variants transition to DONE with the
accumulated text when zero tool calls were emitted; the Anthropic
variant *additionally* breaks (after executing the tools) when
`stop_reason === "end_turn"`; but the OpenAI variant never consults the
stop signal — whenever tool calls are present it always issues a next
backend call (indices 0 then 1 appear in its call trace). -/
theorem loop_done_signals :
    (∀ tools backend (r : AnthropicResponse), backend 0 = .ok r → r.toolCalls = [] →
      (runAnthropicAgentTurn tools backend).error = none
      ∧ (runAnthropicAgentTurn tools backend).st.iterations = 1
      ∧ (runAnthropicAgentTurn tools backend).st.finalResponse = r.text
      ∧ (runAnthropicAgentTurn tools backend).st.newMessages
          = [⟨.assistant, r.text, none, none⟩])
    ∧ (∀ tools backend (r : AnthropicResponse), backend 0 = .ok r → r.toolCalls ≠ [] →
      r.stopReason = "end_turn" →
      (runAnthropicAgentTurn tools backend).error = none
      ∧ (runAnthropicAgentTurn tools backend).st.iterations = 1
      ∧ (runAnthropicAgentTurn tools backend).st.finalResponse = r.text
      ∧ (runAnthropicAgentTurn tools backend).st.newMessages
          = [⟨.assistant, r.text, some r.toolCalls, none⟩,
             ⟨.user, "", none, some (toolResultsOf tools r.toolCalls)⟩])
    ∧ (∀ tools backend (r : OpenAIResponse), backend 0 = .ok r → r.toolCalls = [] →
      (runOpenAIAgentTurn tools backend).error = none
      ∧ (runOpenAIAgentTurn tools backend).st.iterations = 1
      ∧ (runOpenAIAgentTurn tools backend).st.finalResponse = r.text)
    ∧ (∀ tools backend (r : OpenAIResponse), backend 0 = .ok r → r.toolCalls ≠ [] →
      ∃ cs, (runOpenAIAgentTurn tools backend).st.calls = 0 :: 1 :: cs) := by
  refine ⟨?_, ?_, ?_, ?_⟩
  · intro tools backend r hb he
    have he' : r.toolCalls.isEmpty = true := by simp [he]
    refine ⟨?_, ?_, ?_, ?_⟩ <;>
      simp [runAnthropicAgentTurn, show MAX_TOOL_ITERATIONS = 24 + 1 from rfl,
        runAnthropicAgentTurnAux, initTurnState, hb, he']
  · intro tools backend r hb hne hstop
    have he' : r.toolCalls.isEmpty = false := by
      cases hc : r.toolCalls with
      | nil => exact absurd hc hne
      | cons a l => rfl
    have hs' : (r.stopReason == "end_turn") = true := by simp [hstop]
    refine ⟨?_, ?_, ?_, ?_⟩ <;>
      simp [runAnthropicAgentTurn, show MAX_TOOL_ITERATIONS = 24 + 1 from rfl,
        runAnthropicAgentTurnAux, initTurnState, hb, he', hs', anthropicIterState]
  · intro tools backend r hb he
    have he' : r.toolCalls.isEmpty = true := by simp [he]
    refine ⟨?_, ?_, ?_⟩ <;>
      simp [runOpenAIAgentTurn, show MAX_TOOL_ITERATIONS = 24 + 1 from rfl,
        runOpenAIAgentTurnAux, initTurnState, hb, he']
  · intro tools backend r hb hne
    have he' : r.toolCalls.isEmpty = false := by
      cases hc : r.toolCalls with
      | nil => exact absurd hc hne
      | cons a l => rfl
    have hstep : runOpenAIAgentTurn tools backend
        = runOpenAIAgentTurnAux tools backend 24 (openaiIterState tools r initTurnState) := by
      simp [runOpenAIAgentTurn, show MAX_TOOL_ITERATIONS = 24 + 1 from rfl,
        runOpenAIAgentTurnAux, initTurnState, hb, he']
    obtain ⟨cs, hc⟩ := openai_aux_calls_head tools backend 24
      (openaiIterState tools r initTurnState) (by omega)
    refine ⟨cs, ?_⟩
    rw [hstep, hc]
    simp [openaiIterState, initTurnState]

/-- C4 witness: concrete stubs exercise each DONE signal and the
OpenAI continuation. -/
theorem loop_done_signals_witness :
    (runAnthropicAgentTurn []
        (fun _ => .ok ⟨"done", [], "end_turn", 3, 4⟩)).st.finalResponse = "done"
    ∧ (runAnthropicAgentTurn []
        (fun _ => .ok ⟨"both", [⟨"c", "x", []⟩], "end_turn", 0, 0⟩)).st.iterations = 1
    ∧ (runOpenAIAgentTurn []
        (fun _ => .ok ⟨"fin", [], "stop", 0, 0⟩)).st.finalResponse = "fin"
    ∧ (∃ cs, (runOpenAIAgentTurn []
        (fun _ => .ok ⟨"x", [⟨"c", "x", []⟩], "stop", 0, 0⟩)).st.calls = 0 :: 1 :: cs) := by
  refine ⟨(loop_done_signals.1 [] _ ⟨"done", [], "end_turn", 3, 4⟩ rfl rfl).2.2.1,
    (loop_done_signals.2.1 [] _ ⟨"both", [⟨"c", "x", []⟩], "end_turn", 0, 0⟩ rfl
      (by decide) rfl).2.1,
    (loop_done_signals.2.2.1 [] _ ⟨"fin", [], "stop", 0, 0⟩ rfl rfl).2.2,
    loop_done_signals.2.2.2 [] _ ⟨"x", [⟨"c", "x", []⟩], "stop", 0, 0⟩ rfl (by decide)⟩

/-- C4 counterexample: an OpenAI stub whose iteration 0 emits a tool
call *and* the natural-end finish reason `"stop"`.  The claim demands
DONE at that iteration with text `"first"`; the loop instead runs a
second iteration and returns `"second"`. -/
def stopWithToolsBackend : Nat → Except String OpenAIResponse :=
  fun i => if i == 0 then .ok ⟨"first", [⟨"c1", "t", []⟩], "stop", 0, 0⟩
           else .ok ⟨"second", [], "stop", 0, 0⟩

theorem openai_ignores_stop_counterexample :
    stopWithToolsBackend 0 = .ok ⟨"first", [⟨"c1", "t", []⟩], "stop", 0, 0⟩
    ∧ (runOpenAIAgentTurn [] stopWithToolsBackend).st.iterations = 2
    ∧ (runOpenAIAgentTurn [] stopWithToolsBackend).st.finalResponse = "second"
    ∧ (2 : Nat) ≠ 1 ∧ ("second" : String) ≠ "first" := by
  refine ⟨rfl, by decide, by decide, by decide, by decide⟩

/-- C7: looking up an unregistered tool name *returns* (never throws)
an error-flagged result whose content names the unknown tool; inside
the loop, the iteration that hit the unknown tool appends that
error-flagged carrier message and proceeds to the next BUILD_REQUEST
iteration (backend call index 1 follows index 0) instead of aborting. -/
theorem unknown_tool_error_result :
    (∀ tools toolName args,
      tools.find? (fun t => t.name == toolName) = none →
      executeTool tools toolName args
        = ⟨"Error: Unknown tool \"" ++ toolName ++ "\"", some true⟩)
    ∧ (∀ tools backend (r : AnthropicResponse) cid toolName args,
      tools.find? (fun t => t.name == toolName) = none →
      backend 0 = .ok r → r.toolCalls = [⟨cid, toolName, args⟩] →
      (r.stopReason == "end_turn") = false →
      (⟨.user, "", none,
          some [⟨cid, "Error: Unknown tool \"" ++ toolName ++ "\"", some true⟩]⟩ : Message)
        ∈ (runAnthropicAgentTurn tools backend).st.newMessages
      ∧ ∃ cs, (runAnthropicAgentTurn tools backend).st.calls = 0 :: 1 :: cs) := by
  have hexec : ∀ tools toolName args,
      tools.find? (fun t => t.name == toolName) = none →
      executeTool tools toolName args
        = ⟨"Error: Unknown tool \"" ++ toolName ++ "\"", some true⟩ := by
    intro tools toolName args h
    simp [executeTool, h]
  refine ⟨hexec, ?_⟩
  intro tools backend r cid toolName args hfind hb hcalls hstop
  have he' : r.toolCalls.isEmpty = false := by rw [hcalls]; rfl
  have hstep : runAnthropicAgentTurn tools backend
      = runAnthropicAgentTurnAux tools backend 24 (anthropicIterState tools r initTurnState) := by
    simp [runAnthropicAgentTurn, show MAX_TOOL_ITERATIONS = 24 + 1 from rfl,
      runAnthropicAgentTurnAux, initTurnState, hb, he', hstop]
  have hres : toolResultsOf tools r.toolCalls
      = [⟨cid, "Error: Unknown tool \"" ++ toolName ++ "\"", some true⟩] := by
    rw [hcalls]
    simp [toolResultsOf, hexec tools toolName args hfind]
  constructor
  · obtain ⟨ms, cs, h1, _⟩ :=
      anthropic_aux_extends tools backend 24 (anthropicIterState tools r initTurnState)
    rw [hstep, h1]
    simp [anthropicIterState, initTurnState, hres]
  · obtain ⟨cs, hc⟩ := anthropic_aux_calls_head tools backend 24
      (anthropicIterState tools r initTurnState) (by omega)
    refine ⟨cs, ?_⟩
    rw [hstep, hc]
    simp [anthropicIterState, initTurnState]

/-- C7 witness: a concrete call to the unregistered tool `"nope"`
against an empty registry. -/
def unknownToolBackend : Nat → Except String AnthropicResponse :=
  fun i => if i == 0 then .ok ⟨"t", [⟨"c1", "nope", []⟩], "tool_use", 0, 0⟩
           else .ok ⟨"done", [], "end_turn", 0, 0⟩

theorem unknown_tool_error_result_witness :
    executeTool [] "nope" [] = ⟨"Error: Unknown tool \"nope\"", some true⟩
    ∧ (⟨.user, "", none,
        some [⟨"c1", "Error: Unknown tool \"nope\"", some true⟩]⟩ : Message)
      ∈ (runAnthropicAgentTurn [] unknownToolBackend).st.newMessages
    ∧ ∃ cs, (runAnthropicAgentTurn [] unknownToolBackend).st.calls = 0 :: 1 :: cs := by
  have h2 := unknown_tool_error_result.2 [] unknownToolBackend
    ⟨"t", [⟨"c1", "nope", []⟩], "tool_use", 0, 0⟩ "c1" "nope" [] rfl rfl rfl rfl
  exact ⟨unknown_tool_error_result.1 [] "nope" [] rfl, h2.1, h2.2⟩

/-! ## Theorems for `runAgent` failure handling (C3) -/

/-- C3 (amended): when a backend call fails, the run terminates at once
— the failing call is issued exactly once and no backend call is
retried (the call trace is exactly `0, 1, …, k`), on the
Anthropic/Bedrock path and on the OpenAI path alike — and the result
carries the taxonomy kind with its message in `error`; but the returned
`messages` field is the session history *as loaded before the run*: the
new user turn and everything produced during the failed run are NOT in
it (the partial conversation is silently dropped on failure). -/
theorem backend_failure_surfaced :
    (∀ provider model tools aB oB prior prompt k msg,
      (provider == "openai") = false →
      k < MAX_TOOL_ITERATIONS →
      (∀ i, i < k → isAlive (aB i) = true) →
      aB k = .error msg →
      runAgent provider model tools aB oB prior prompt
        = ⟨"", prior, some (classifyError provider model msg)⟩
      ∧ (runAnthropicAgentTurn tools aB).st.calls = List.range (k + 1))
    ∧ (∀ model tools aB oB prior prompt k msg,
      k < MAX_TOOL_ITERATIONS →
      (∀ i, i < k → isAliveOpenAI (oB i) = true) →
      oB k = .error msg →
      runAgent "openai" model tools aB oB prior prompt
        = ⟨"", prior, some (classifyError "openai" model msg)⟩
      ∧ (runOpenAIAgentTurn tools oB).st.calls = List.range (k + 1))
    ∧ (∀ provider model msg, (classifyError provider model msg).kind
        ∈ (["context_overflow", "rate_limit", "auth_error", "model_not_found",
            "unknown"] : List String)) := by
  refine ⟨?_, ?_, ?_⟩
  · intro provider model tools aB oB prior prompt k msg hp hk halive hfail
    have hf := anthropic_aux_fail tools aB MAX_TOOL_ITERATIONS initTurnState k msg
      (by simp [initTurnState]) (by simp [initTurnState]; omega)
      (fun i _ h2 => halive i h2) hfail
    constructor
    · have herr : (runAnthropicAgentTurn tools aB).error = some msg := hf.1
      simp only [runAgent, hp, Bool.false_eq_true, if_false, herr]
    · have hc := hf.2
      simpa [runAnthropicAgentTurn, initTurnState, List.range_eq_range'] using hc
  · intro model tools aB oB prior prompt k msg hk halive hfail
    have hf := openai_aux_fail tools oB MAX_TOOL_ITERATIONS initTurnState k msg
      (by simp [initTurnState]) (by simp [initTurnState]; omega)
      (fun i _ h2 => halive i h2) hfail
    constructor
    · have herr : (runOpenAIAgentTurn tools oB).error = some msg := hf.1
      simp only [runAgent, beq_self_eq_true, if_true, herr]
    · have hc := hf.2
      simpa [runOpenAIAgentTurn, initTurnState, List.range_eq_range'] using hc
  · intro provider model msg
    unfold classifyError
    split_ifs <;> simp

/-- C3 witness backends: alive (tool-calling) for calls 0 and 1, then
a thrown error on call 2, for each dialect. -/
def failAtTwoBackend : Nat → Except String AnthropicResponse :=
  fun i => if i < 2 then .ok ⟨"w", [⟨"c", "t", []⟩], "tool_use", 0, 0⟩
           else .error "rate_limit hit"

def failAtTwoOpenAIBackend : Nat → Except String OpenAIResponse :=
  fun i => if i < 2 then .ok ⟨"w", [⟨"c", "t", []⟩], "tool_use", 0, 0⟩
           else .error "ThrottlingException"

theorem backend_failure_surfaced_witness :
    (runAgent "anthropic" "m" [] failAtTwoBackend
        (fun _ => .ok ⟨"", [], "stop", 0, 0⟩) [] "go"
      = ⟨"", [], some (classifyError "anthropic" "m" "rate_limit hit")⟩
    ∧ (runAnthropicAgentTurn [] failAtTwoBackend).st.calls = List.range 3)
    ∧ (runAgent "openai" "m" [] (fun _ => .ok ⟨"", [], "end_turn", 0, 0⟩)
        failAtTwoOpenAIBackend [] "go"
      = ⟨"", [], some (classifyError "openai" "m" "ThrottlingException")⟩
    ∧ (runOpenAIAgentTurn [] failAtTwoOpenAIBackend).st.calls = List.range 3)
    ∧ (classifyError "anthropic" "m" "rate_limit hit").kind = "rate_limit"
    ∧ (classifyError "openai" "m" "ThrottlingException").kind = "rate_limit" := by
  have h := backend_failure_surfaced.1 "anthropic" "m" [] failAtTwoBackend
    (fun _ => .ok ⟨"", [], "stop", 0, 0⟩) [] "go" 2 "rate_limit hit"
    rfl (by decide) (by decide) rfl
  have h2 := backend_failure_surfaced.2.1 "m" []
    (fun _ => .ok ⟨"", [], "end_turn", 0, 0⟩) failAtTwoOpenAIBackend [] "go"
    2 "ThrottlingException" (by decide) (by decide) rfl
  exact ⟨h, h2, by decide, by decide⟩

/-- C3 counterexample: the backend throws on the very first call; the
result's `messages` is the prior (empty) history — the new user turn
`"hi"` is nowhere in it, refuting "the returned messages field contains
… the new user turn". -/
theorem failure_loses_user_turn_counterexample :
    runAgent "anthropic" "m" [] (fun _ => .error "boom")
        (fun _ => .ok ⟨"", [], "stop", 0, 0⟩) [] "hi"
      = ⟨"", [], some ⟨"unknown", "boom"⟩⟩
    ∧ (⟨.user, "hi", none, none⟩ : Message)
        ∉ (runAgent "anthropic" "m" [] (fun _ => .error "boom")
            (fun _ => .ok ⟨"", [], "stop", 0, 0⟩) [] "hi").messages := by
  refine ⟨by decide, by decide⟩

/-! ## Lemmas about the lane scheduler -/

@[simp] lemma enqueuedIds_append (a b : List LaneEvent) :
    enqueuedIds (a ++ b) = enqueuedIds a ++ enqueuedIds b :=
  List.filterMap_append a b _

@[simp] lemma startedIds_append (a b : List LaneEvent) :
    startedIds (a ++ b) = startedIds a ++ startedIds b :=
  List.filterMap_append a b _

@[simp] lemma settledIds_append (a b : List LaneEvent) :
    settledIds (a ++ b) = settledIds a ++ settledIds b :=
  List.filterMap_append a b _

@[simp] lemma enqueuedIds_single_enqueued (i : Nat) :
    enqueuedIds [.enqueued i] = [i] := rfl

@[simp] lemma enqueuedIds_single_started (i : Nat) :
    enqueuedIds [.started i] = [] := rfl

@[simp] lemma enqueuedIds_single_settled (i : Nat) (r : Except String String) :
    enqueuedIds [.settled i r] = [] := rfl

@[simp] lemma startedIds_single_enqueued (i : Nat) :
    startedIds [.enqueued i] = [] := rfl

@[simp] lemma startedIds_single_started (i : Nat) :
    startedIds [.started i] = [i] := rfl

@[simp] lemma startedIds_single_settled (i : Nat) (r : Except String String) :
    startedIds [.settled i r] = [] := rfl

@[simp] lemma settledIds_single_enqueued (i : Nat) :
    settledIds [.enqueued i] = [] := rfl

@[simp] lemma settledIds_single_started (i : Nat) :
    settledIds [.started i] = [] := rfl

@[simp] lemma settledIds_single_settled (i : Nat) (r : Except String String) :
    settledIds [.settled i r] = [i] := rfl

/-- The inductive invariant of one lane: arrival order is execution
order followed by the pending queue; execution order is settlement
order followed by the at-most-one task in flight; ids are allocated
consecutively; every delivered result is the settling task's own
outcome. -/
def LaneInv (outcome : Nat → Except String String) (s : LaneSt) : Prop :=
  enqueuedIds s.trace = startedIds s.trace ++ s.queue
  ∧ startedIds s.trace = settledIds s.trace ++ s.current.toList
  ∧ enqueuedIds s.trace = List.range s.nextId
  ∧ ∀ id r, LaneEvent.settled id r ∈ s.trace → r = outcome id

lemma laneInv_init (outcome : Nat → Except String String) :
    LaneInv outcome laneInit := by
  refine ⟨rfl, rfl, rfl, ?_⟩
  intro id r h
  simp [laneInit] at h

lemma laneInv_step {outcome : Nat → Except String String} {s t : LaneSt}
    (hstep : LaneStep outcome s t) (hinv : LaneInv outcome s) :
    LaneInv outcome t := by
  obtain ⟨h1, h2, h3, h4⟩ := hinv
  cases hstep with
  | enqueue =>
    refine ⟨?_, ?_, ?_, ?_⟩
    · simp [h1, List.append_assoc]
    · simpa using h2
    · simp [h3, List.range_succ]
    · intro id r hmem
      simp only [List.mem_append] at hmem
      rcases hmem with hmem | hmem
      · exact h4 id r hmem
      · simp at hmem
  | beginProcess h => exact ⟨h1, h2, h3, h4⟩
  | startTask id rest hrun hcur hq =>
    refine ⟨?_, ?_, ?_, ?_⟩
    · simp [h1, hq, List.append_assoc]
    · simp [h2, hcur]
    · simpa using h3
    · intro i r hmem
      simp only [List.mem_append] at hmem
      rcases hmem with hmem | hmem
      · exact h4 i r hmem
      · simp at hmem
  | finishTask id hcur =>
    refine ⟨?_, ?_, ?_, ?_⟩
    · simpa using h1
    · simp [h2, hcur, List.append_assoc]
    · simpa using h3
    · intro i r hmem
      simp only [List.mem_append] at hmem
      rcases hmem with hmem | hmem
      · exact h4 i r hmem
      · simp only [List.mem_singleton, LaneEvent.settled.injEq] at hmem
        rw [hmem.1]
        exact hmem.2
  | endProcess hrun hcur hq => exact ⟨h1, h2, h3, h4⟩

lemma laneInv_reachable {outcome : Nat → Except String String} {s : LaneSt}
    (h : LaneReachable outcome s) : LaneInv outcome s := by
  induction h with
  | refl => exact laneInv_init outcome
  | tail _ hstep ih => exact laneInv_step hstep ih

/-- Draining: from any lane state that is running with no task in
flight and task `id` somewhere in the queue, the scheduler's own steps
reach a state in which `id` has been settled with its own outcome. -/
lemma lane_drain (outcome : Nat → Except String String) (id : Nat) (rest : List Nat) :
    ∀ (pre : List Nat) (s : LaneSt), s.running = true → s.current = none →
      s.queue = pre ++ id :: rest →
      ∃ t, Relation.ReflTransGen (LaneStep outcome) s t
        ∧ LaneEvent.settled id (outcome id) ∈ t.trace := by
  intro pre
  induction pre with
  | nil =>
    intro s hrun hcur hq
    have h1 : LaneStep outcome s
        { s with queue := rest, current := some id,
                 trace := s.trace ++ [.started id] } :=
      LaneStep.startTask s id rest hrun hcur (by simpa using hq)
    have h2 : LaneStep outcome
        { s with queue := rest, current := some id,
                 trace := s.trace ++ [.started id] }
        { s with queue := rest, current := none,
                 trace := (s.trace ++ [.started id]) ++ [.settled id (outcome id)] } :=
      LaneStep.finishTask _ id rfl
    refine ⟨_, Relation.ReflTransGen.tail (Relation.ReflTransGen.single h1) h2, ?_⟩
    simp
  | cons p pre ih =>
    intro s hrun hcur hq
    have h1 : LaneStep outcome s
        { s with queue := pre ++ id :: rest, current := some p,
                 trace := s.trace ++ [.started p] } :=
      LaneStep.startTask s p (pre ++ id :: rest) hrun hcur (by simpa using hq)
    have h2 : LaneStep outcome
        { s with queue := pre ++ id :: rest, current := some p,
                 trace := s.trace ++ [.started p] }
        { s with queue := pre ++ id :: rest, current := none,
                 trace := (s.trace ++ [.started p]) ++ [.settled p (outcome p)] } :=
      LaneStep.finishTask _ p rfl
    obtain ⟨t, hreach, hmem⟩ := ih
      { s with queue := pre ++ id :: rest, current := none,
               trace := (s.trace ++ [.started p]) ++ [.settled p (outcome p)] }
      hrun rfl rfl
    exact ⟨t, Relation.ReflTransGen.trans
      (Relation.ReflTransGen.tail (Relation.ReflTransGen.single h1) h2) hreach, hmem⟩

/-! ## Theorems for the lane scheduler (C1, C5) -/

/-- C1: in every reachable state of a lane, the start order (execution
order) is a prefix of the arrival order — the remainder being exactly
the pending queue, in order — and at most one task of the lane is in
flight (the started-but-unsettled tasks are exactly `current`, at most
one); ids are allocated consecutively.  Across distinct keys the
scheduler imposes no ordering constraint: a step available on one key
stays available after any step on another key, and the two steps
commute to the same composite state. -/
theorem lane_fifo_serialization :
    (∀ (outcome : Nat → Except String String) (s : LaneSt),
      LaneReachable outcome s →
        enqueuedIds s.trace = startedIds s.trace ++ s.queue
        ∧ startedIds s.trace = settledIds s.trace ++ s.current.toList
        ∧ (startedIds s.trace).length ≤ (settledIds s.trace).length + 1
        ∧ enqueuedIds s.trace = List.range s.nextId)
    ∧ (∀ (o1 o2 : Nat → Except String String) (sys : String → LaneSt)
        (k1 k2 : String) (a b : LaneSt),
      k1 ≠ k2 → LaneStep o1 (sys k1) a → LaneStep o2 (sys k2) b →
        LaneStep o2 ((Function.update sys k1 a) k2) b
        ∧ Function.update (Function.update sys k1 a) k2 b
            = Function.update (Function.update sys k2 b) k1 a) := by
  constructor
  · intro outcome s hreach
    obtain ⟨h1, h2, h3, h4⟩ := laneInv_reachable hreach
    refine ⟨h1, h2, ?_, h3⟩
    rw [h2, List.length_append]
    cases s.current <;> simp
  · intro o1 o2 sys k1 k2 a b hk hs1 hs2
    constructor
    · rw [Function.update_noteq (Ne.symm hk)]
      exact hs2
    · exact Function.update_comm hk a b sys

/-- C1 witness material: one lane after enqueue 0, enqueue 1, begin,
start 0, settle 0; plus the one-enqueue lane state used for the
cross-key commutation instance. -/
def laneWitnessOutcome : Nat → Except String String := fun _ => .ok "v"

def laneWitnessSt : LaneSt :=
  ⟨[1], true, none, 2,
   [.enqueued 0, .enqueued 1, .started 0, .settled 0 (.ok "v")]⟩

def laneWitnessOne : LaneSt := ⟨[0], false, none, 1, [.enqueued 0]⟩

lemma laneWitnessSt_reachable : LaneReachable laneWitnessOutcome laneWitnessSt := by
  have h1 : LaneStep laneWitnessOutcome laneInit
      ⟨[0], false, none, 1, [.enqueued 0]⟩ := LaneStep.enqueue laneInit
  have h2 : LaneStep laneWitnessOutcome ⟨[0], false, none, 1, [.enqueued 0]⟩
      ⟨[0, 1], false, none, 2, [.enqueued 0, .enqueued 1]⟩ := LaneStep.enqueue _
  have h3 : LaneStep laneWitnessOutcome
      ⟨[0, 1], false, none, 2, [.enqueued 0, .enqueued 1]⟩
      ⟨[0, 1], true, none, 2, [.enqueued 0, .enqueued 1]⟩ :=
    LaneStep.beginProcess _ rfl
  have h4 : LaneStep laneWitnessOutcome
      ⟨[0, 1], true, none, 2, [.enqueued 0, .enqueued 1]⟩
      ⟨[1], true, some 0, 2, [.enqueued 0, .enqueued 1, .started 0]⟩ :=
    LaneStep.startTask _ 0 [1] rfl rfl rfl
  have h5 : LaneStep laneWitnessOutcome
      ⟨[1], true, some 0, 2, [.enqueued 0, .enqueued 1, .started 0]⟩
      laneWitnessSt :=
    LaneStep.finishTask _ 0 rfl
  exact Relation.ReflTransGen.tail (Relation.ReflTransGen.tail
    (Relation.ReflTransGen.tail (Relation.ReflTransGen.tail
      (Relation.ReflTransGen.single h1) h2) h3) h4) h5

/-- C1 witness: the invariant conclusions evaluated at a concrete
reachable state, and the cross-key instance at two concrete keys. -/
theorem lane_fifo_serialization_witness :
    (enqueuedIds laneWitnessSt.trace
        = startedIds laneWitnessSt.trace ++ laneWitnessSt.queue
      ∧ startedIds laneWitnessSt.trace
        = settledIds laneWitnessSt.trace ++ laneWitnessSt.current.toList
      ∧ (startedIds laneWitnessSt.trace).length
        ≤ (settledIds laneWitnessSt.trace).length + 1
      ∧ enqueuedIds laneWitnessSt.trace = List.range laneWitnessSt.nextId)
    ∧ (LaneStep laneWitnessOutcome
        ((Function.update (fun (_ : String) => laneInit) "a" laneWitnessOne) "b")
        laneWitnessOne
      ∧ Function.update
          (Function.update (fun (_ : String) => laneInit) "a" laneWitnessOne)
          "b" laneWitnessOne
        = Function.update
            (Function.update (fun (_ : String) => laneInit) "b" laneWitnessOne)
            "a" laneWitnessOne) := by
  refine ⟨lane_fifo_serialization.1 laneWitnessOutcome laneWitnessSt
    laneWitnessSt_reachable, ?_⟩
  exact lane_fifo_serialization.2 laneWitnessOutcome laneWitnessOutcome
    (fun _ => laneInit) "a" "b" laneWitnessOne laneWitnessOne
    (by decide) (LaneStep.enqueue _) (LaneStep.enqueue _)

/-- C5: in every reachable lane state, every delivered result is the
settling task's own outcome (a rejection reaches only the failing
task's caller), and any task still queued behind arbitrarily many
predecessors — failed or not — is still driven to settlement with its
own outcome by the scheduler's steps. -/
theorem lane_failure_isolation :
    (∀ (outcome : Nat → Except String String) (s : LaneSt),
      LaneReachable outcome s →
      ∀ id r, LaneEvent.settled id r ∈ s.trace → r = outcome id)
    ∧ (∀ (outcome : Nat → Except String String) (s : LaneSt)
        (pre : List Nat) (id : Nat) (rest : List Nat),
      LaneReachable outcome s → s.running = true → s.current = none →
      s.queue = pre ++ id :: rest →
      ∃ t, Relation.ReflTransGen (LaneStep outcome) s t
        ∧ LaneEvent.settled id (outcome id) ∈ t.trace) := by
  constructor
  · intro outcome s hreach
    exact (laneInv_reachable hreach).2.2.2
  · intro outcome s pre id rest _ hrun hcur hq
    exact lane_drain outcome id rest pre s hrun hcur hq

/-- C5 witness: task 0 throws `"boom"`, task 1 succeeds; from the
reachable state with both queued, the lane settles task 0 with its own
rejection and still drives task 1 to its own success. -/
def laneFailOutcome : Nat → Except String String :=
  fun i => if i == 0 then .error "boom" else .ok "fine"

theorem lane_failure_isolation_witness :
    Except.error "boom" = laneFailOutcome 0
    ∧ laneFailOutcome 1 = .ok "fine"
    ∧ (∃ t, Relation.ReflTransGen (LaneStep laneFailOutcome)
        ⟨[0, 1], true, none, 2, [.enqueued 0, .enqueued 1]⟩ t
      ∧ LaneEvent.settled 1 (laneFailOutcome 1) ∈ t.trace) := by
  have hreach : LaneReachable laneFailOutcome
      ⟨[0, 1], true, none, 2, [.enqueued 0, .enqueued 1]⟩ := by
    have h1 : LaneStep laneFailOutcome laneInit
        ⟨[0], false, none, 1, [.enqueued 0]⟩ := LaneStep.enqueue laneInit
    have h2 : LaneStep laneFailOutcome ⟨[0], false, none, 1, [.enqueued 0]⟩
        ⟨[0, 1], false, none, 2, [.enqueued 0, .enqueued 1]⟩ := LaneStep.enqueue _
    have h3 : LaneStep laneFailOutcome
        ⟨[0, 1], false, none, 2, [.enqueued 0, .enqueued 1]⟩
        ⟨[0, 1], true, none, 2, [.enqueued 0, .enqueued 1]⟩ :=
      LaneStep.beginProcess _ rfl
    exact Relation.ReflTransGen.tail (Relation.ReflTransGen.tail
      (Relation.ReflTransGen.single h1) h2) h3
  have hdrainFirst : LaneReachable laneFailOutcome
      ⟨[1], true, none, 2,
       [.enqueued 0, .enqueued 1, .started 0, .settled 0 (.error "boom")]⟩ := by
    have h4 : LaneStep laneFailOutcome
        ⟨[0, 1], true, none, 2, [.enqueued 0, .enqueued 1]⟩
        ⟨[1], true, some 0, 2, [.enqueued 0, .enqueued 1, .started 0]⟩ :=
      LaneStep.startTask _ 0 [1] rfl rfl rfl
    have h5 : LaneStep laneFailOutcome
        ⟨[1], true, some 0, 2, [.enqueued 0, .enqueued 1, .started 0]⟩
        ⟨[1], true, none, 2,
         [.enqueued 0, .enqueued 1, .started 0, .settled 0 (.error "boom")]⟩ :=
      LaneStep.finishTask _ 0 rfl
    exact Relation.ReflTransGen.tail (Relation.ReflTransGen.tail hreach h4) h5
  refine ⟨?_, rfl, ?_⟩
  · exact lane_failure_isolation.1 laneFailOutcome _ hdrainFirst 0 (.error "boom")
      (by simp)
  · exact lane_failure_isolation.2 laneFailOutcome
      ⟨[0, 1], true, none, 2, [.enqueued 0, .enqueued 1]⟩ [0] 1 []
      hreach rfl rfl rfl
